import Mathlib

/-!
Shallow embedding of the lineup-optimizer core of FantraxAPI-extensions
(src/fantrax_extensions/lineup_optimizer/optimizer.py).

Modelling conventions:
* Timestamps are integers (seconds since an arbitrary epoch, UTC).  The Python
  comparison `timedelta.total_seconds() <= 7200` becomes an integer comparison,
  and `timedelta(minutes=1)` becomes 60 seconds.
* Formation counts are integers (Python ints), since `can_swap_players`
  decrements counts before checking legality.
* `Dict[str, PlayerStatus]` is an association list; insertion conses a new
  entry at the front and lookup takes the first match, so a later insertion of
  the same key wins, exactly as for a Python dict.
* Fallible external actions (the paginated HTTP fetch) are passed in as an
  `Except` value; Python exceptions caught by a `try` block correspond to the
  `Except.error` branch.
-/

namespace Fantrax

/-- Counts of the four position groups, as in `Formation` (optimizer.py:30-55). -/
structure Formation where
  gk : Int
  def_ : Int
  mid : Int
  fwd : Int
  deriving DecidableEq

/-- `Formation.is_legal` (optimizer.py:37-52): exactly 11 players, 1 GK,
3-5 DEF, 2-5 MID, 1-3 FWD. -/
def Formation.is_legal (f : Formation) : Bool :=
  decide (f.gk + f.def_ + f.mid + f.fwd = 11) &&
  decide (f.gk = 1) &&
  (decide (3 ≤ f.def_) && decide (f.def_ ≤ 5)) &&
  (decide (2 ≤ f.mid) && decide (f.mid ≤ 5)) &&
  (decide (1 ≤ f.fwd) && decide (f.fwd ≤ 3))

/-- `Formation.__str__` (optimizer.py:54-55). -/
def Formation.toStr (f : Formation) : String :=
  toString f.gk ++ "-" ++ toString f.def_ ++ "-" ++ toString f.mid ++ "-" ++ toString f.fwd

/-- `PlayerStatus` (optimizer.py:57-64).  `is_starting`/`is_benched` are
tri-state (`none` = unknown), `game_time` is an optional timestamp. -/
structure PlayerStatus where
  is_starting : Option Bool
  is_benched : Option Bool
  game_time : Option Int
  is_locked : Bool
  opponent : Option String
  deriving DecidableEq

/-- `PlayerStatus.is_confirmed_not_starting` (optimizer.py:66-74):
`(is_starting is not None and not is_starting) or (is_benched is not None and is_benched)`. -/
def PlayerStatus.is_confirmed_not_starting (s : PlayerStatus) : Bool :=
  (match s.is_starting with
   | some b => !b
   | none => false) ||
  (match s.is_benched with
   | some b => b
   | none => false)

/-- `PlayerStatus.is_game_soon` (optimizer.py:76-81): false when `game_time`
is unset (Python falsiness of `None`), otherwise the difference to `current_time`
is at most 7200 seconds. -/
def PlayerStatus.is_game_soon (s : PlayerStatus) (current_time : Int) : Bool :=
  match s.game_time with
  | none => false
  | some t => decide (t - current_time ≤ 7200)

/-- One player of the external roster rows (`row.player`). -/
structure Player where
  id : String
  name : String
  deriving DecidableEq

/-- One roster slot (external `RosterRow`): an optional player and the
position short name (`row.pos.short_name`, one of "G", "D", "M", "F"). -/
structure RosterRow where
  player : Option Player
  pos : String
  deriving DecidableEq

/-- A roster snapshot: `roster.get_starters()` and `roster.get_bench_players()`. -/
structure Roster where
  starters : List RosterRow
  bench : List RosterRow
  deriving DecidableEq

/-- `row.player.id`.  The source accesses this only on rows whose `player` is
present (playerless rows are filtered out before any access); the `none` case
is an arbitrary total default. -/
def playerId (r : RosterRow) : String :=
  match r.player with
  | some p => p.id
  | none => ""

/-- `row.player.name`; same remark as for `playerId`. -/
def playerName (r : RosterRow) : String :=
  match r.player with
  | some p => p.name
  | none => ""

/-- The `self.player_statuses` dictionary (optimizer.py:90). -/
abbrev StatusMap := List (String × PlayerStatus)

/-- `LineupOptimizer.get_player_status` (optimizer.py:217-219):
`self.player_statuses.get(player_id)`. -/
def get_player_status (statuses : StatusMap) (player_id : String) : Option PlayerStatus :=
  statuses.lookup player_id

/-- Python truthiness test `status and status.is_locked` used in
`can_swap_players` (optimizer.py:261,266): `None` is falsy. -/
def status_locked (s : Option PlayerStatus) : Bool :=
  match s with
  | some st => st.is_locked
  | none => false

/-- The starter-side decrement of the simulated formation
(optimizer.py:278-285). -/
def dec_pos (f : Formation) (pos : String) : Formation :=
  if pos == "G" then { f with gk := f.gk - 1 }
  else if pos == "D" then { f with def_ := f.def_ - 1 }
  else if pos == "M" then { f with mid := f.mid - 1 }
  else if pos == "F" then { f with fwd := f.fwd - 1 }
  else f

/-- The bench-side increment of the simulated formation
(optimizer.py:287-294). -/
def inc_pos (f : Formation) (pos : String) : Formation :=
  if pos == "G" then { f with gk := f.gk + 1 }
  else if pos == "D" then { f with def_ := f.def_ + 1 }
  else if pos == "M" then { f with mid := f.mid + 1 }
  else if pos == "F" then { f with fwd := f.fwd + 1 }
  else f

/-- The formation that would result from the swap (optimizer.py:270-294). -/
def simulate_swap_formation (cf : Formation) (starter_pos bench_pos : String) : Formation :=
  inc_pos (dec_pos cf starter_pos) bench_pos

/-- `LineupOptimizer.can_swap_players` (optimizer.py:246-300): reject if the
starter is locked, then if the bench player is locked, then if the simulated
post-swap formation is illegal; otherwise accept. -/
def can_swap_players (statuses : StatusMap) (starter bench : RosterRow)
    (current_formation : Formation) : Bool × String :=
  if status_locked (get_player_status statuses (playerId starter)) then
    (false, "Cannot move " ++ playerName starter ++
      " to bench - player is locked (game in progress)")
  else if status_locked (get_player_status statuses (playerId bench)) then
    (false, "Cannot move " ++ playerName bench ++
      " to starting lineup - player is locked (game in progress)")
  else
    let new_formation := simulate_swap_formation current_formation starter.pos bench.pos
    if !new_formation.is_legal then
      (false, "Invalid formation after swap: " ++ new_formation.toStr ++
        " (must have exactly 11 players with valid position counts)")
    else
      (true, "Swap is valid")

/-- `LineupOptimizer.get_current_formation` (optimizer.py:221-234): count the
position short names over all starter rows. -/
def get_current_formation (roster : Roster) : Formation :=
  roster.starters.foldl
    (fun f row =>
      if row.pos == "G" then { f with gk := f.gk + 1 }
      else if row.pos == "D" then { f with def_ := f.def_ + 1 }
      else if row.pos == "M" then { f with mid := f.mid + 1 }
      else if row.pos == "F" then { f with fwd := f.fwd + 1 }
      else f)
    ⟨0, 0, 0, 0⟩

/-- One entry of the local `starter_players` / `bench_players` lists of
`find_optimal_swaps` (optimizer.py:313-328): a roster row paired with its
(optional) status. -/
abbrev BenchEntry := RosterRow × Option PlayerStatus

/-- One swap proposal `(starter, bench, reason)` (optimizer.py:306). -/
abbrev Swap := RosterRow × RosterRow × String

/-- `str(x)` applied to an `Optional[str]` inside the reason f-strings:
Python renders `None` as "None". -/
def optStr (o : Option String) : String :=
  match o with
  | some s => s
  | none => "None"

/-- One iteration of the pass-1 inner candidate loop
(optimizer.py:340-360).  The accumulator is
`(best_bench, best_reason, latest_game_time)`. -/
def p1_scan_step (statuses : StatusMap) (cf : Formation) (now : Int)
    (starter : RosterRow) (sst : PlayerStatus)
    (acc : Option RosterRow × Option String × Option Int) (bp : BenchEntry) :
    Option RosterRow × Option String × Option Int :=
  match bp.2 with
  | none => acc
  | some bst =>
    match bst.game_time with
    | none => acc
    | some bgt =>
      if bst.is_game_soon now then acc
      else if (can_swap_players statuses starter bp.1 cf).1 then
        if acc.2.2.all (fun lt => decide (lt < bgt)) then
          if starter.pos == bp.1.pos then
            (some bp.1,
             some ("Direct position match - replacing confirmed non-starter (" ++
               optStr sst.opponent ++ ") with player from later game (" ++
               optStr bst.opponent ++ ")"),
             some bgt)
          else if acc.1.isNone then
            (some bp.1,
             some ("Position flexible swap - replacing confirmed non-starter (" ++
               optStr sst.opponent ++ ") with player from later game (" ++
               optStr bst.opponent ++ ")"),
             some bgt)
          else acc
        else acc
      else acc

/-- One iteration of the pass-1 outer starter loop (optimizer.py:331-364).
The accumulator is `(swaps, bench_players)`; an accepted proposal is appended
and the chosen bench entry removed exactly as
`bench_players.remove((best_bench, self.get_player_status(best_bench.player.id)))`. -/
def pass1_step (statuses : StatusMap) (cf : Formation) (now : Int)
    (acc : List Swap × List BenchEntry) (sp : RosterRow × Option PlayerStatus) :
    List Swap × List BenchEntry :=
  match sp.2 with
  | none => acc
  | some sst =>
    if sst.is_game_soon now then
      if sst.is_confirmed_not_starting then
        match acc.2.foldl (p1_scan_step statuses cf now sp.1 sst) (none, none, none) with
        | (some b, r, _) =>
          (acc.1 ++ [(sp.1, b, r.getD "")],
           acc.2.erase (b, get_player_status statuses (playerId b)))
        | (none, _, _) => acc
      else acc
    else acc

/-- The pass-2 inner candidate loop (optimizer.py:373-383), written as a
recursion because the same-position branch executes `break`. -/
def p2_scan (statuses : StatusMap) (cf : Formation) (starter : RosterRow)
    (acc : Option RosterRow × Option String) :
    List BenchEntry → Option RosterRow × Option String
  | [] => acc
  | bp :: rest =>
    match bp.2 with
    | none => p2_scan statuses cf starter acc rest
    | some bst =>
      if bst.is_starting.getD false then
        if (can_swap_players statuses starter bp.1 cf).1 then
          if starter.pos == bp.1.pos then
            (some bp.1,
             some "Direct position match - replacing non-starter with confirmed starter")
          else if acc.1.isNone then
            p2_scan statuses cf starter
              (some bp.1,
               some "Position flexible swap - replacing non-starter with confirmed starter")
              rest
          else p2_scan statuses cf starter acc rest
        else p2_scan statuses cf starter acc rest
      else p2_scan statuses cf starter acc rest

/-- One iteration of the pass-2 outer starter loop (optimizer.py:367-387). -/
def pass2_step (statuses : StatusMap) (cf : Formation)
    (acc : List Swap × List BenchEntry) (sp : RosterRow × Option PlayerStatus) :
    List Swap × List BenchEntry :=
  match sp.2 with
  | none => acc
  | some sst =>
    if sst.is_confirmed_not_starting then
      match p2_scan statuses cf sp.1 (none, none) acc.2 with
      | (some b, r) =>
        (acc.1 ++ [(sp.1, b, r.getD "")],
         acc.2.erase (b, get_player_status statuses (playerId b)))
      | (none, _) => acc
    else acc

/-- `LineupOptimizer.find_optimal_swaps` (optimizer.py:302-389).  The current
time is a parameter (the source reads `datetime.now`); the status map is read
but never written, so the whole planner is a pure function of
`(statuses, roster, current_time)`. -/
def find_optimal_swaps (statuses : StatusMap) (roster : Roster)
    (current_time : Int) : List Swap :=
  let current_formation := get_current_formation roster
  let starter_players :=
    (roster.starters.filter (fun r => r.player.isSome)).map
      (fun s => (s, get_player_status statuses (playerId s)))
  let bench_players :=
    (roster.bench.filter (fun r => r.player.isSome)).map
      (fun b => (b, get_player_status statuses (playerId b)))
  let after1 :=
    starter_players.foldl (pass1_step statuses current_formation current_time)
      ([], bench_players)
  let after2 :=
    starter_players.foldl (pass2_step statuses current_formation) after1
  after2.1

/-- One raw record of the paginated starting-players feed, as consumed by
`update_player_statuses` (optimizer.py:161-209): `player["scorerId"]`,
the optional `player["opponent"]` composite, and
`player.get("miscDisplayType")`. -/
structure Record where
  scorerId : String
  opponent : Option String
  miscDisplayType : Option String
  deriving DecidableEq

/-- Helper for `splitOnBr`: scan the character list, cutting at every
occurrence of the five characters of the separator.  `acc` holds the current
segment reversed. -/
def splitBrAux : List Char → List Char → List (List Char)
  | acc, [] => [acc.reverse]
  | acc, '<' :: 'b' :: 'r' :: '/' :: '>' :: rest => acc.reverse :: splitBrAux [] rest
  | acc, c :: rest => splitBrAux (c :: acc) rest

/-- Python `s.split("<br/>")` (optimizer.py:169): split on each
non-overlapping occurrence of the separator, left to right; a string without
the separator yields a single-element list. -/
def splitOnBr (s : String) : List String :=
  (splitBrAux [] s.toList).map (fun cs => ⟨cs⟩)

/-- The per-record parsing of `update_player_statuses`
(optimizer.py:161-209).  `parseTime` stands for
`datetime.strptime(f"{now.date()} {time_str}", "%Y-%m-%d %I:%M%p")` together
with the surrounding `try/except ValueError` (a parse failure, i.e. `none`,
leaves `game_time` unset); it is an opaque parameter because the claims do not
depend on the concrete time format.  A composite that does not split into
exactly two parts leaves both `opponent` and `game_time` unset. -/
def processRecord (parseTime : String → Option Int) (now : Int) (r : Record) :
    PlayerStatus :=
  let ot : Option String × Option Int :=
    match r.opponent with
    | none => (none, none)
    | some comp =>
      match splitOnBr comp with
      | [o, t] => (some o, parseTime t)
      | _ => (none, none)
  let game_time := ot.2
  let is_locked :=
    match game_time with
    | some t => decide (now ≥ t - 60)
    | none => false
  let st : Option Bool × Option Bool :=
    if r.miscDisplayType == some "10" then (some true, some false)
    else if r.miscDisplayType == some "11" then (some false, some true)
    else (none, none)
  { is_starting := st.1, is_benched := st.2, game_time := game_time,
    is_locked := is_locked, opponent := ot.1 }

/-- `self.player_statuses[player_id] = PlayerStatus(...)` (optimizer.py:203):
dict insertion, modelled as consing at the front (lookup takes the first
match, so a later insertion of the same key wins). -/
def insert_status (m : StatusMap) (pid : String) (st : PlayerStatus) : StatusMap :=
  (pid, st) :: m

/-- `LineupOptimizer.update_player_statuses` (optimizer.py:120-215) as a
state transformer on the status map.  The paginated fetch is summarised by a
single `Except` value holding all accumulated records (the pages are only
concatenated by the source).  The source clears the map (`clear()`,
line 128) before fetching inside the `try` block; the final
`except Exception` catches every error and returns, so a failed fetch leaves
the already-cleared map — the `prior` map is never restored. -/
def update_player_statuses (fetch : Except String (List Record))
    (parseTime : String → Option Int) (now : Int) (prior : StatusMap) : StatusMap :=
  match prior, fetch with
  | _, Except.error _ => []
  | _, Except.ok records =>
    records.foldl (fun m r => insert_status m r.scorerId (processRecord parseTime now r)) []

/-! ## Concrete example data used by counterexamples and witnesses -/

/-- A roster row with a present player whose id and name coincide. -/
def mkRow (id pos : String) : RosterRow :=
  { player := some { id := id, name := id }, pos := pos }

/-- Ten filler starters completing a legal 1-4-4-2 formation next to one
more defender. -/
def fillerStarters : List RosterRow :=
  [mkRow "S1" "G", mkRow "S2" "D", mkRow "S3" "D", mkRow "S4" "D",
   mkRow "S5" "M", mkRow "S6" "M", mkRow "S7" "M", mkRow "S8" "M",
   mkRow "S9" "F", mkRow "S10" "F"]

/-- Example roster: starter "A" is a defender; bench "b1" and "b2" are
defenders. -/
def ex1_roster : Roster :=
  { starters := mkRow "A" "D" :: fillerStarters,
    bench := [mkRow "b1" "D", mkRow "b2" "D"] }

/-- Example statuses: "A" is confirmed not starting with its game soon;
"b1" has a later game with unknown lineup; "b2" is confirmed starting with
no game time. -/
def ex1_statuses : StatusMap :=
  [("A", { is_starting := some false, is_benched := some true,
           game_time := some 1000, is_locked := false, opponent := some "AOP" }),
   ("b1", { is_starting := none, is_benched := none,
            game_time := some 100000, is_locked := false, opponent := some "B1OP" }),
   ("b2", { is_starting := some true, is_benched := some false,
            game_time := none, is_locked := false, opponent := some "B2OP" })]

/-- Example roster for the pass-1 preference analysis: starter "A" is a
defender; bench "b1" is a midfielder listed first, bench "b2" a defender
listed second. -/
def ex3_roster : Roster :=
  { starters := mkRow "A" "D" :: fillerStarters,
    bench := [mkRow "b1" "M", mkRow "b2" "D"] }

/-- Example statuses for the pass-1 preference analysis: "A" is confirmed
not starting with its game soon; "b1" (cross-position) has the latest game,
"b2" (same position) a later-but-earlier game; both games are not soon and
nobody is locked. -/
def ex3_statuses : StatusMap :=
  [("A", { is_starting := some false, is_benched := some true,
           game_time := some 1000, is_locked := false, opponent := some "AOP" }),
   ("b1", { is_starting := none, is_benched := none,
            game_time := some 200000, is_locked := false, opponent := some "B1OP" }),
   ("b2", { is_starting := none, is_benched := none,
            game_time := some 100000, is_locked := false, opponent := some "B2OP" })]

/-- Eligibility of a bench entry in the pass-1 candidate loop, before the
preference logic: status present, game time known, game not soon, and the
can-swap check passes (optimizer.py:340-347). -/
def p1_eligible (statuses : StatusMap) (cf : Formation) (now : Int)
    (starter : RosterRow) (bp : BenchEntry) : Bool :=
  match bp.2 with
  | none => false
  | some bst =>
    match bst.game_time with
    | none => false
    | some _ => !(bst.is_game_soon now) && (can_swap_players statuses starter bp.1 cf).1

/-- The game time recorded in a bench entry's status, if any. -/
def bench_game_time (bp : BenchEntry) : Option Int :=
  match bp.2 with
  | none => none
  | some bst => bst.game_time

/-- Status of a player that is locked, for the can-swap witnesses. -/
def ex6_locked : PlayerStatus :=
  { is_starting := some true, is_benched := some false,
    game_time := some 10, is_locked := true, opponent := some "LOP" }

/-- Status map containing only the locked player "L". -/
def ex6_statuses : StatusMap := [("L", ex6_locked)]

/-- The status of starter "A" in `ex1_statuses`: confirmed not starting,
game soon at time 0. -/
def exA_status : PlayerStatus :=
  { is_starting := some false, is_benched := some true,
    game_time := some 1000, is_locked := false, opponent := some "AOP" }

/-- The status held before the failing refresh of the C2 scenario. -/
def ex2_prior_status : PlayerStatus :=
  { is_starting := some true, is_benched := some false,
    game_time := some 500, is_locked := false, opponent := some "X" }

/-- The malformed record of the C8 witness scenario. -/
def rec8 : Record :=
  { scorerId := "p1", opponent := some "nosplit", miscDisplayType := some "10" }

/-- The two-record batch of the C8 witness scenario: "p1" has a malformed
opponent composite, "p2" a well-formed one. -/
def ex8_records : List Record :=
  [rec8,
   { scorerId := "p2", opponent := some "vs MUN<br/>4:00PM",
     miscDisplayType := some "11" }]

/-- Invariant carried through both passes of the swap planner: the bench ids
already used by proposals are duplicate-free, the remaining bench list has
duplicate-free ids disjoint from the used ones, and every remaining bench
entry still pairs a row with its own status lookup (as built at the top of
`find_optimal_swaps`). -/
def planner_inv (statuses : StatusMap) (acc : List Swap × List BenchEntry) : Prop :=
  (acc.1.map (fun sw => playerId sw.2.1)).Nodup ∧
  (acc.2.map (fun bp => playerId bp.1)).Nodup ∧
  (∀ x ∈ acc.1.map (fun sw => playerId sw.2.1), x ∉ acc.2.map (fun bp => playerId bp.1)) ∧
  (∀ bp ∈ acc.2, bp.2 = get_player_status statuses (playerId bp.1))

/-! ## Structure of the pass steps

Each outer-loop step of either pass leaves the `(swaps, bench_players)`
accumulator unchanged or appends exactly one proposal whose starter is the
processed starter row and whose bench player is drawn from the current
`bench_players` list, removing that bench entry.  These shape lemmas drive
the per-starter and per-bench-player uniqueness proofs. -/

theorem p1_scan_step_best (statuses : StatusMap) (cf : Formation) (now : Int)
    (starter : RosterRow) (sst : PlayerStatus)
    (acc : Option RosterRow × Option String × Option Int) (bp : BenchEntry) :
    (p1_scan_step statuses cf now starter sst acc bp).1 = acc.1 ∨
    (p1_scan_step statuses cf now starter sst acc bp).1 = some bp.1 := by
  unfold p1_scan_step
  repeat' split
  all_goals simp

theorem p1_scan_mem (statuses : StatusMap) (cf : Formation) (now : Int)
    (starter : RosterRow) (sst : PlayerStatus) :
    ∀ (l : List BenchEntry) (acc : Option RosterRow × Option String × Option Int)
      (b : RosterRow),
      (l.foldl (p1_scan_step statuses cf now starter sst) acc).1 = some b →
      acc.1 = some b ∨ ∃ bp ∈ l, bp.1 = b := by
  intro l
  induction l with
  | nil => exact fun acc b h => Or.inl h
  | cons x xs ih =>
    intro acc b h
    rw [List.foldl_cons] at h
    rcases ih _ b h with h' | ⟨bp, hmem, hb⟩
    · rcases p1_scan_step_best statuses cf now starter sst acc x with hc | hc
      · exact Or.inl (hc ▸ h')
      · rw [hc] at h'
        exact Or.inr ⟨x, List.mem_cons_self x xs, Option.some.inj h'⟩
    · exact Or.inr ⟨bp, List.mem_cons_of_mem x hmem, hb⟩

theorem pass1_step_cases (statuses : StatusMap) (cf : Formation) (now : Int)
    (acc : List Swap × List BenchEntry) (sp : RosterRow × Option PlayerStatus) :
    pass1_step statuses cf now acc sp = acc ∨
    ∃ b r st, (b, st) ∈ acc.2 ∧
      pass1_step statuses cf now acc sp =
        (acc.1 ++ [(sp.1, b, r)],
         acc.2.erase (b, get_player_status statuses (playerId b))) := by
  unfold pass1_step
  split
  · exact Or.inl rfl
  · rename_i sst heqs
    split
    · split
      · split
        · rename_i b r t heq
          have hb : (acc.2.foldl (p1_scan_step statuses cf now sp.1 sst) (none, none, none)).1
              = some b := by rw [heq]
          rcases p1_scan_mem statuses cf now sp.1 sst acc.2 (none, none, none) b hb with
            h0 | ⟨bp, hmem, hbp⟩
          · exact absurd h0 (by simp)
          · refine Or.inr ⟨b, r.getD "", bp.2, ?_, rfl⟩
            have : bp = (b, bp.2) := by rw [← hbp]
            rw [← this]
            exact hmem
        · exact Or.inl rfl
      · exact Or.inl rfl
    · exact Or.inl rfl

theorem p2_scan_mem (statuses : StatusMap) (cf : Formation) (starter : RosterRow) :
    ∀ (l : List BenchEntry) (acc : Option RosterRow × Option String) (b : RosterRow),
      (p2_scan statuses cf starter acc l).1 = some b →
      acc.1 = some b ∨ ∃ bp ∈ l, bp.1 = b := by
  intro l
  induction l with
  | nil => exact fun acc b h => Or.inl h
  | cons x xs ih =>
    intro acc b h
    rw [p2_scan] at h
    split at h
    · rcases ih _ b h with h' | ⟨bp, hmem, hb⟩
      · exact Or.inl h'
      · exact Or.inr ⟨bp, List.mem_cons_of_mem x hmem, hb⟩
    · split at h
      · split at h
        · split at h
          · exact Or.inr ⟨x, List.mem_cons_self x xs, by simpa using h⟩
          · split at h
            · rcases ih _ b h with h' | ⟨bp, hmem, hb⟩
              · exact Or.inr ⟨x, List.mem_cons_self x xs, by simpa using h'⟩
              · exact Or.inr ⟨bp, List.mem_cons_of_mem x hmem, hb⟩
            · rcases ih _ b h with h' | ⟨bp, hmem, hb⟩
              · exact Or.inl h'
              · exact Or.inr ⟨bp, List.mem_cons_of_mem x hmem, hb⟩
        · rcases ih _ b h with h' | ⟨bp, hmem, hb⟩
          · exact Or.inl h'
          · exact Or.inr ⟨bp, List.mem_cons_of_mem x hmem, hb⟩
      · rcases ih _ b h with h' | ⟨bp, hmem, hb⟩
        · exact Or.inl h'
        · exact Or.inr ⟨bp, List.mem_cons_of_mem x hmem, hb⟩

theorem pass2_step_cases (statuses : StatusMap) (cf : Formation)
    (acc : List Swap × List BenchEntry) (sp : RosterRow × Option PlayerStatus) :
    pass2_step statuses cf acc sp = acc ∨
    ∃ b r st, (b, st) ∈ acc.2 ∧
      pass2_step statuses cf acc sp =
        (acc.1 ++ [(sp.1, b, r)],
         acc.2.erase (b, get_player_status statuses (playerId b))) := by
  unfold pass2_step
  split
  · exact Or.inl rfl
  · split
    · split
      · rename_i b r heq
        have hb : (p2_scan statuses cf sp.1 (none, none) acc.2).1 = some b := by rw [heq]
        rcases p2_scan_mem statuses cf sp.1 acc.2 (none, none) b hb with
          h0 | ⟨bp, hmem, hbp⟩
        · exact absurd h0 (by simp)
        · refine Or.inr ⟨b, r.getD "", bp.2, ?_, rfl⟩
          have : bp = (b, bp.2) := by rw [← hbp]
          rw [← this]
          exact hmem
      · exact Or.inl rfl
    · exact Or.inl rfl

/-- In a duplicate-free list, at most one element is `==` to any given key. -/
theorem countP_beq_le_one_of_nodup {α : Type} [BEq α] [LawfulBEq α]
    {L : List α} (h : L.Nodup) (k : α) : L.countP (fun x => x == k) ≤ 1 := by
  induction L with
  | nil => simp
  | cons a L ih =>
    rw [List.countP_cons]
    rcases List.nodup_cons.mp h with ⟨ha, hL⟩
    by_cases hc : a = k
    · subst hc
      have hz : L.countP (fun x => x == a) = 0 :=
        List.countP_eq_zero.mpr (fun b hb hba => ha ((eq_of_beq hba) ▸ hb))
      simp [hz]
    · have hf : (a == k) = false := beq_eq_false_iff_ne.mpr hc
      simp only [hf]
      simpa using ih hL

/-- A fold whose step appends at most one proposal, with the processed
starter row as the proposal's starter, adds at most `countP` of the starter
list to the count of matching proposals. -/
theorem foldl_swaps_countP_le (q : RosterRow → Bool)
    (step : List Swap × List BenchEntry → RosterRow × Option PlayerStatus →
      List Swap × List BenchEntry)
    (hstep : ∀ acc sp, (step acc sp).1 = acc.1 ∨
      ∃ b r, (step acc sp).1 = acc.1 ++ [(sp.1, b, r)]) :
    ∀ (l : List (RosterRow × Option PlayerStatus)) (acc : List Swap × List BenchEntry),
      ((l.foldl step acc).1.countP (fun sw => q sw.1)) ≤
        (acc.1.countP (fun sw => q sw.1)) + l.countP (fun sp => q sp.1) := by
  intro l
  induction l with
  | nil => intro acc; simp
  | cons x xs ih =>
    intro acc
    rw [List.foldl_cons]
    refine le_trans (ih (step acc x)) ?_
    rw [List.countP_cons]
    rcases hstep acc x with h1 | ⟨b, r, h1⟩
    · rw [h1]
      omega
    · rw [h1, List.countP_append]
      simp only [List.countP_cons, List.countP_nil]
      omega

/-! ## Claim theorems -/

/-- C5: `is_legal()` is true iff the total is 11, there is exactly one
goalkeeper, 3-5 defenders, 2-5 midfielders and 1-3 forwards; (1,4,4,2) is
legal and (1,4,4,3) is illegal. -/
theorem c5_is_legal_iff :
    (∀ f : Formation, f.is_legal = true ↔
      (f.gk + f.def_ + f.mid + f.fwd = 11 ∧ f.gk = 1 ∧
       (3 ≤ f.def_ ∧ f.def_ ≤ 5) ∧ (2 ≤ f.mid ∧ f.mid ≤ 5) ∧
       (1 ≤ f.fwd ∧ f.fwd ≤ 3))) ∧
    (Formation.mk 1 4 4 2).is_legal = true ∧
    (Formation.mk 1 4 4 3).is_legal = false := by
  refine ⟨fun f => ?_, by decide, by decide⟩
  simp [Formation.is_legal, Bool.and_eq_true, decide_eq_true_eq, and_assoc]

/-- C7: `is_game_soon(now)` is true iff `game_time` is set and
`game_time - now ≤ 7200`; in particular it is false when `game_time` is
unset, and a game already in the past still counts as soon. -/
theorem c7_is_game_soon_iff :
    (∀ (s : PlayerStatus) (now : Int),
      s.is_game_soon now = true ↔ ∃ t, s.game_time = some t ∧ t - now ≤ 7200) ∧
    (({ is_starting := none, is_benched := none, game_time := some 0,
        is_locked := false, opponent := none } : PlayerStatus).is_game_soon 10000
      = true) := by
  refine ⟨fun s now => ?_, by decide⟩
  cases h : s.game_time <;> simp [PlayerStatus.is_game_soon, h]

/-- C6: a starter/bench pair in which either player has a status entry with
`is_locked` true is rejected by `can_swap_players`, regardless of the
simulated formation. -/
theorem c6_locked_rejected :
    ∀ (statuses : StatusMap) (starter bench : RosterRow) (cf : Formation)
      (st : PlayerStatus),
      ((get_player_status statuses (playerId starter) = some st ∧
        st.is_locked = true) ∨
       (get_player_status statuses (playerId bench) = some st ∧
        st.is_locked = true)) →
      (can_swap_players statuses starter bench cf).1 = false := by
  intro statuses starter bench cf st h
  unfold can_swap_players
  rcases h with ⟨hs, hl⟩ | ⟨hb, hl⟩
  · rw [hs]
    simp [status_locked, hl]
  · cases hst : status_locked (get_player_status statuses (playerId starter))
    · rw [hb]
      simp [status_locked, hl, hst]
    · simp [hst]

/-- Witness for C6 at a concrete locked starter. -/
theorem c6_locked_rejected_witness :
    (get_player_status ex6_statuses (playerId (mkRow "L" "D")) = some ex6_locked ∧
     ex6_locked.is_locked = true) ∧
    (can_swap_players ex6_statuses (mkRow "L" "D") (mkRow "b" "D")
      (Formation.mk 1 4 4 2)).1 = false :=
  ⟨⟨by decide, by decide⟩,
   c6_locked_rejected ex6_statuses (mkRow "L" "D") (mkRow "b" "D")
     (Formation.mk 1 4 4 2) ex6_locked (Or.inl ⟨by decide, by decide⟩)⟩

/-- C10: a player with no status entry is never rejected as locked; when
neither player of the pair has a status entry, `can_swap_players` returns
exactly the legality of the simulated post-swap formation. -/
theorem c10_no_status_formation_only :
    ∀ (statuses : StatusMap) (starter bench : RosterRow) (cf : Formation),
      get_player_status statuses (playerId starter) = none →
      get_player_status statuses (playerId bench) = none →
      (can_swap_players statuses starter bench cf).1 =
        (simulate_swap_formation cf starter.pos bench.pos).is_legal := by
  intro statuses starter bench cf hs hb
  unfold can_swap_players
  rw [hs, hb]
  cases h : (simulate_swap_formation cf starter.pos bench.pos).is_legal <;>
    simp [status_locked, h]

/-- Witness for C10 at an empty status map. -/
theorem c10_no_status_formation_only_witness :
    (get_player_status [] (playerId (mkRow "x" "D")) = none ∧
     get_player_status [] (playerId (mkRow "y" "D")) = none) ∧
    (can_swap_players [] (mkRow "x" "D") (mkRow "y" "D")
        (Formation.mk 1 4 4 2)).1 =
      (simulate_swap_formation (Formation.mk 1 4 4 2) "D" "D").is_legal :=
  ⟨⟨rfl, rfl⟩,
   c10_no_status_formation_only [] (mkRow "x" "D") (mkRow "y" "D")
     (Formation.mk 1 4 4 2) rfl rfl⟩

/-- C9: the swap planner is a pure function of the status map, the roster and
the current time (the source only reads `self.player_statuses` and mutates a
per-call local list), so two runs on the same unmodified snapshot return the
same sequence of proposals. -/
theorem c9_deterministic :
    ∀ (statuses : StatusMap) (roster : Roster) (now : Int),
      find_optimal_swaps statuses roster now = find_optimal_swaps statuses roster now :=
  fun _ _ _ => rfl

/-- C2 (code bug): the source clears the status map before fetching inside
the `try` block, so a fetch that fails immediately leaves the map empty, not
in its prior state. -/
theorem c2_refresh_failure_empties_map :
    update_player_statuses (Except.error "network failure") (fun _ => none) 0
        [("p1", ex2_prior_status)] = [] ∧
    ([("p1", ex2_prior_status)] : StatusMap) ≠ [] := by
  exact ⟨rfl, by decide⟩

/-- C1 counterexample: on `ex1_roster`/`ex1_statuses`, starter "A" (game
soon, confirmed not starting) receives a proposal in pass 1 (bench "b1") and
a second proposal in pass 2 (bench "b2"), because pass 2 re-processes every
confirmed non-starter without excluding starters already swapped in pass 1. -/
theorem c1_counterexample :
    ((find_optimal_swaps ex1_statuses ex1_roster 0).map fun sw => playerId sw.1)
      = ["A", "A"] ∧
    ¬ ((find_optimal_swaps ex1_statuses ex1_roster 0).countP
        (fun sw => playerId sw.1 == "A") ≤ 1) := by
  exact ⟨by decide, by decide⟩

/-- C3 counterexample: on `ex3_roster`/`ex3_statuses`, bench "b2" is a
swap-legal, unclaimed same-position (defender) candidate for starter "A",
yet pass 1 proposes the cross-position midfielder "b1", because "b1" is
scanned first and its later game time then blocks "b2" at the
latest-game-time guard. -/
theorem c3_counterexample :
    p1_eligible ex3_statuses (get_current_formation ex3_roster) 0 (mkRow "A" "D")
      (mkRow "b2" "D", get_player_status ex3_statuses "b2") = true ∧
    (mkRow "b2" "D").pos = (mkRow "A" "D").pos ∧
    ((find_optimal_swaps ex3_statuses ex3_roster 0).map
      fun sw => (playerId sw.1, playerId sw.2.1, sw.2.1.pos)) = [("A", "b1", "M")] ∧
    ("M" : String) ≠ (mkRow "A" "D").pos := by
  refine ⟨by decide, rfl, by decide, by decide⟩

/-- C1 amended: each of the two passes yields at most one proposal per
starter, but pass 2 re-processes starters already swapped in pass 1, so with
duplicate-free starter ids a starter can appear in up to two proposals per
cycle — not at most one. -/
theorem c1_amended :
    ∀ (statuses : StatusMap) (roster : Roster) (now : Int) (pid : String),
      ((roster.starters.filter (fun r => r.player.isSome)).map playerId).Nodup →
      ((find_optimal_swaps statuses roster now).countP
        (fun sw => playerId sw.1 == pid)) ≤ 2 := by
  intro statuses roster now pid hnd
  have hcs : ((roster.starters.filter (fun r => r.player.isSome)).map
      (fun s => (s, get_player_status statuses (playerId s)))).countP
        (fun sp => playerId sp.1 == pid) ≤ 1 := by
    rw [List.countP_map]
    have h0 := countP_beq_le_one_of_nodup hnd pid
    rw [List.countP_map] at h0
    exact h0
  have hstep1 : ∀ acc sp,
      (pass1_step statuses (get_current_formation roster) now acc sp).1 = acc.1 ∨
      ∃ b r, (pass1_step statuses (get_current_formation roster) now acc sp).1 =
        acc.1 ++ [(sp.1, b, r)] := by
    intro acc sp
    rcases pass1_step_cases statuses (get_current_formation roster) now acc sp with
      h | ⟨b, r, st, _, h⟩
    · exact Or.inl (by rw [h])
    · exact Or.inr ⟨b, r, by rw [h]⟩
  have hstep2 : ∀ acc sp,
      (pass2_step statuses (get_current_formation roster) acc sp).1 = acc.1 ∨
      ∃ b r, (pass2_step statuses (get_current_formation roster) acc sp).1 =
        acc.1 ++ [(sp.1, b, r)] := by
    intro acc sp
    rcases pass2_step_cases statuses (get_current_formation roster) acc sp with
      h | ⟨b, r, st, _, h⟩
    · exact Or.inl (by rw [h])
    · exact Or.inr ⟨b, r, by rw [h]⟩
  have h1 := foldl_swaps_countP_le (fun s => playerId s == pid) _ hstep1
    ((roster.starters.filter (fun r => r.player.isSome)).map
      (fun s => (s, get_player_status statuses (playerId s))))
    ([], (roster.bench.filter (fun r => r.player.isSome)).map
      (fun b => (b, get_player_status statuses (playerId b))))
  have h2 := foldl_swaps_countP_le (fun s => playerId s == pid) _ hstep2
    ((roster.starters.filter (fun r => r.player.isSome)).map
      (fun s => (s, get_player_status statuses (playerId s))))
    (((roster.starters.filter (fun r => r.player.isSome)).map
        (fun s => (s, get_player_status statuses (playerId s)))).foldl
      (pass1_step statuses (get_current_formation roster) now)
      ([], (roster.bench.filter (fun r => r.player.isSome)).map
        (fun b => (b, get_player_status statuses (playerId b)))))
  simp only [List.countP_nil] at h1 h2 hcs ⊢
  have hfind : find_optimal_swaps statuses roster now =
      (((roster.starters.filter (fun r => r.player.isSome)).map
          (fun s => (s, get_player_status statuses (playerId s)))).foldl
        (pass2_step statuses (get_current_formation roster))
        (((roster.starters.filter (fun r => r.player.isSome)).map
            (fun s => (s, get_player_status statuses (playerId s)))).foldl
          (pass1_step statuses (get_current_formation roster) now)
          ([], (roster.bench.filter (fun r => r.player.isSome)).map
            (fun b => (b, get_player_status statuses (playerId b)))))).1 := rfl
  rw [hfind]
  omega

/-- Witness for C1 amended at `ex1_roster`. -/
theorem c1_amended_witness :
    ((ex1_roster.starters.filter (fun r => r.player.isSome)).map playerId).Nodup ∧
    ((find_optimal_swaps ex1_statuses ex1_roster 0).countP
      (fun sw => playerId sw.1 == "A")) ≤ 2 :=
  ⟨by decide, c1_amended ex1_statuses ex1_roster 0 "A" (by decide)⟩

theorem planner_inv_update (statuses : StatusMap)
    (acc next : List Swap × List BenchEntry)
    (h : next = acc ∨ ∃ s b r st, (b, st) ∈ acc.2 ∧
      next = (acc.1 ++ [(s, b, r)],
        acc.2.erase (b, get_player_status statuses (playerId b))))
    (hinv : planner_inv statuses acc) : planner_inv statuses next := by
  rcases h with rfl | ⟨s, b, r, st, hmem, rfl⟩
  · exact hinv
  · obtain ⟨hn1, hn2, hdisj, hcoh⟩ := hinv
    have hst : st = get_player_status statuses (playerId b) := hcoh (b, st) hmem
    rw [hst] at hmem
    have hpairs : acc.2.Nodup := hn2.of_map
    have hsub : (acc.2.erase (b, get_player_status statuses (playerId b))).Sublist acc.2 :=
      List.erase_sublist _ _
    have hbid_mem : playerId b ∈ acc.2.map (fun bp => playerId bp.1) :=
      List.mem_map.mpr ⟨(b, get_player_status statuses (playerId b)), hmem, rfl⟩
    have hbid_not_swaps : playerId b ∉ acc.1.map (fun sw => playerId sw.2.1) :=
      fun hx => hdisj _ hx hbid_mem
    refine ⟨?_, ?_, ?_, ?_⟩
    · rw [List.map_append]
      rw [List.nodup_append]
      refine ⟨hn1, List.nodup_singleton _, ?_⟩
      intro x hx hx'
      simp only [List.map_cons, List.map_nil, List.mem_singleton] at hx'
      exact hbid_not_swaps (hx' ▸ hx)
    · exact hn2.sublist (hsub.map _)
    · intro x hx hx2
      rw [List.map_append] at hx
      rcases List.mem_append.mp hx with hx | hx
      · exact hdisj x hx ((hsub.map _).subset hx2)
      · simp only [List.map_cons, List.map_nil, List.mem_singleton] at hx
        subst hx
        rcases List.mem_map.mp hx2 with ⟨bp, hbp, hbpid⟩
        have hbp' := (List.Nodup.mem_erase_iff hpairs).mp hbp
        have : bp = (b, get_player_status statuses (playerId b)) := by
          apply List.inj_on_of_nodup_map hn2 hbp'.2 hmem
          simpa using hbpid
        exact hbp'.1 this
    · intro bp hbp
      exact hcoh bp (hsub.subset hbp)

/-- Both pass steps preserve the planner invariant. -/
theorem planner_inv_foldl (statuses : StatusMap)
    (step : List Swap × List BenchEntry → RosterRow × Option PlayerStatus →
      List Swap × List BenchEntry)
    (hstep : ∀ acc sp, step acc sp = acc ∨
      ∃ b r st, (b, st) ∈ acc.2 ∧
        step acc sp = (acc.1 ++ [(sp.1, b, r)],
          acc.2.erase (b, get_player_status statuses (playerId b)))) :
    ∀ (l : List (RosterRow × Option PlayerStatus)) (acc : List Swap × List BenchEntry),
      planner_inv statuses acc → planner_inv statuses (l.foldl step acc) := by
  intro l
  induction l with
  | nil => exact fun acc h => h
  | cons x xs ih =>
    intro acc h
    rw [List.foldl_cons]
    refine ih _ (planner_inv_update statuses acc _ ?_ h)
    rcases hstep acc x with h' | ⟨b, r, st, hmem, h'⟩
    · exact Or.inl h'
    · exact Or.inr ⟨x.1, b, r, st, hmem, h'⟩

/-- C4: with duplicate-free bench ids, no bench player appears in more than
one proposal of a cycle: once claimed (in pass 1 or pass 2) a bench entry is
removed from the candidate list and never reused. -/
theorem c4_no_bench_reuse :
    ∀ (statuses : StatusMap) (roster : Roster) (now : Int),
      ((roster.bench.filter (fun r => r.player.isSome)).map playerId).Nodup →
      ((find_optimal_swaps statuses roster now).map
        (fun sw => playerId sw.2.1)).Nodup := by
  intro statuses roster now hnd
  have hinit : planner_inv statuses
      ([], (roster.bench.filter (fun r => r.player.isSome)).map
        (fun b => (b, get_player_status statuses (playerId b)))) := by
    refine ⟨List.nodup_nil, ?_, by simp, ?_⟩
    · rw [List.map_map]
      exact hnd
    · intro bp hbp
      rcases List.mem_map.mp hbp with ⟨row, _, hrow⟩
      rw [← hrow]
  have h1 := planner_inv_foldl statuses
    (pass1_step statuses (get_current_formation roster) now)
    (pass1_step_cases statuses (get_current_formation roster) now)
    ((roster.starters.filter (fun r => r.player.isSome)).map
      (fun s => (s, get_player_status statuses (playerId s))))
    _ hinit
  have h2 := planner_inv_foldl statuses
    (pass2_step statuses (get_current_formation roster))
    (pass2_step_cases statuses (get_current_formation roster))
    ((roster.starters.filter (fun r => r.player.isSome)).map
      (fun s => (s, get_player_status statuses (playerId s))))
    _ h1
  exact h2.1

/-- Witness for C4 at `ex1_roster`. -/
theorem c4_no_bench_reuse_witness :
    ((ex1_roster.bench.filter (fun r => r.player.isSome)).map playerId).Nodup ∧
    ((find_optimal_swaps ex1_statuses ex1_roster 0).map
      (fun sw => playerId sw.2.1)).Nodup :=
  ⟨by decide, c4_no_bench_reuse ex1_statuses ex1_roster 0 (by decide)⟩

/-! ## Pass-1 candidate-selection analysis (for C3) -/

theorem p1_eligible_elim (statuses : StatusMap) (cf : Formation) (now : Int)
    (starter : RosterRow) (bp : BenchEntry)
    (h : p1_eligible statuses cf now starter bp = true) :
    ∃ bst bgt, bp.2 = some bst ∧ bst.game_time = some bgt ∧
      bst.is_game_soon now = false ∧
      (can_swap_players statuses starter bp.1 cf).1 = true := by
  unfold p1_eligible at h
  rcases hb2 : bp.2 with _ | bst
  · simp only [hb2] at h
    exact absurd h (by simp)
  · simp only [hb2] at h
    rcases hgt : bst.game_time with _ | bgt
    · simp only [hgt] at h
      exact absurd h (by simp)
    · simp only [hgt, Bool.and_eq_true, Bool.not_eq_true'] at h
      exact ⟨bst, bgt, rfl, hgt, h.1, h.2⟩

theorem p1_scan_step_skip (statuses : StatusMap) (cf : Formation) (now : Int)
    (starter : RosterRow) (sst : PlayerStatus)
    (acc : Option RosterRow × Option String × Option Int) (bp : BenchEntry)
    (h : p1_eligible statuses cf now starter bp = false) :
    p1_scan_step statuses cf now starter sst acc bp = acc := by
  unfold p1_eligible at h
  unfold p1_scan_step
  rcases hb2 : bp.2 with _ | bst
  · simp only [hb2]
  · simp only [hb2] at h ⊢
    rcases hgt : bst.game_time with _ | bgt
    · simp only [hgt]
    · simp only [hgt] at h ⊢
      by_cases hsoon : bst.is_game_soon now
      · simp [hsoon]
      · by_cases hcan : (can_swap_players statuses starter bp.1 cf).1
        · simp [hsoon, hcan] at h
        · simp [hsoon, hcan]

theorem p1_scan_prefix_skip (statuses : StatusMap) (cf : Formation) (now : Int)
    (starter : RosterRow) (sst : PlayerStatus) :
    ∀ (l : List BenchEntry) (acc : Option RosterRow × Option String × Option Int),
      (∀ x ∈ l, p1_eligible statuses cf now starter x = false) →
      l.foldl (p1_scan_step statuses cf now starter sst) acc = acc := by
  intro l
  induction l with
  | nil => intro acc _; rfl
  | cons x xs ih =>
    intro acc h
    rw [List.foldl_cons,
      p1_scan_step_skip statuses cf now starter sst acc x (h x (List.mem_cons_self x xs))]
    exact ih acc (fun y hy => h y (List.mem_cons_of_mem x hy))

theorem p1_scan_step_eligible_same (statuses : StatusMap) (cf : Formation) (now : Int)
    (starter : RosterRow) (sst : PlayerStatus)
    (acc : Option RosterRow × Option String × Option Int) (bp : BenchEntry)
    (bst : PlayerStatus) (bgt : Int)
    (hb2 : bp.2 = some bst) (hgt : bst.game_time = some bgt)
    (hsoon : bst.is_game_soon now = false)
    (hcan : (can_swap_players statuses starter bp.1 cf).1 = true)
    (hxpos : (starter.pos == bp.1.pos) = true)
    (hguard : acc.2.2.all (fun lt => decide (lt < bgt)) = true) :
    p1_scan_step statuses cf now starter sst acc bp =
      (some bp.1,
       some ("Direct position match - replacing confirmed non-starter (" ++
         optStr sst.opponent ++ ") with player from later game (" ++
         optStr bst.opponent ++ ")"),
       some bgt) := by
  unfold p1_scan_step
  simp only [hb2, hgt, hsoon, hcan, hguard, hxpos, Bool.false_eq_true, if_false, if_true]

theorem p1_scan_step_cross_skip (statuses : StatusMap) (cf : Formation) (now : Int)
    (starter : RosterRow) (sst : PlayerStatus)
    (acc : Option RosterRow × Option String × Option Int) (bp : BenchEntry)
    (hxpos : (starter.pos == bp.1.pos) = false)
    (hsome : acc.1.isNone = false) :
    p1_scan_step statuses cf now starter sst acc bp = acc := by
  unfold p1_scan_step
  repeat' split
  all_goals simp_all

theorem p1_scan_step_guard_skip (statuses : StatusMap) (cf : Formation) (now : Int)
    (starter : RosterRow) (sst : PlayerStatus)
    (acc : Option RosterRow × Option String × Option Int) (bp : BenchEntry)
    (bst : PlayerStatus) (bgt : Int)
    (hb2 : bp.2 = some bst) (hgt : bst.game_time = some bgt)
    (hguard : acc.2.2.all (fun lt => decide (lt < bgt)) = false) :
    p1_scan_step statuses cf now starter sst acc bp = acc := by
  unfold p1_scan_step
  simp only [hb2, hgt, hguard]
  repeat' split
  all_goals simp_all

theorem p1_scan_same_pos_mono (statuses : StatusMap) (cf : Formation) (now : Int)
    (starter : RosterRow) (sst : PlayerStatus) :
    ∀ (l : List BenchEntry) (b0 : RosterRow) (r0 : Option String) (t0 : Int),
      b0.pos = starter.pos →
      ∃ b' r' t',
        l.foldl (p1_scan_step statuses cf now starter sst) (some b0, r0, some t0) =
          (some b', r', some t') ∧
        b'.pos = starter.pos ∧ t0 ≤ t' ∧
        (∀ c ∈ l, p1_eligible statuses cf now starter c = true →
          c.1.pos = starter.pos → ∀ u, bench_game_time c = some u → u ≤ t') ∧
        ((b' = b0 ∧ t' = t0) ∨
         ∃ c ∈ l, c.1 = b' ∧ bench_game_time c = some t' ∧
           p1_eligible statuses cf now starter c = true ∧ c.1.pos = starter.pos) := by
  intro l
  induction l with
  | nil =>
    intro b0 r0 t0 hp
    exact ⟨b0, r0, t0, rfl, hp, le_refl t0, by simp, Or.inl ⟨rfl, rfl⟩⟩
  | cons x xs ih =>
    intro b0 r0 t0 hp
    rw [List.foldl_cons]
    by_cases helig : p1_eligible statuses cf now starter x = true
    · obtain ⟨bst, bgt, hb2, hgt, hsoon, hcan⟩ :=
        p1_eligible_elim statuses cf now starter x helig
      have hgtx : bench_game_time x = some bgt := by
        simp [bench_game_time, hb2, hgt]
      by_cases hlt : t0 < bgt
      · by_cases hxpos : (starter.pos == x.1.pos) = true
        · have hstep := p1_scan_step_eligible_same statuses cf now starter sst
            (some b0, r0, some t0) x bst bgt hb2 hgt hsoon hcan hxpos
            (by simp [hlt])
          rw [hstep]
          have hxp : x.1.pos = starter.pos := (beq_iff_eq.mp hxpos).symm
          obtain ⟨b', r', t', heq, hps, hle, hbound, hch⟩ := ih x.1 _ bgt hxp
          refine ⟨b', r', t', heq, hps, le_trans (le_of_lt hlt) hle, ?_, ?_⟩
          · intro c hc hel hcp u hu
            rcases List.mem_cons.mp hc with rfl | hc
            · rw [hgtx] at hu
              exact (Option.some.inj hu) ▸ hle
            · exact hbound c hc hel hcp u hu
          · rcases hch with ⟨hb', ht'⟩ | ⟨c, hc, rest⟩
            · refine Or.inr ⟨x, List.mem_cons_self x xs, hb' ▸ rfl, ?_, helig, hxp⟩
              rw [hgtx, ht']
            · exact Or.inr ⟨c, List.mem_cons_of_mem x hc, rest⟩
        · have hxpos' : (starter.pos == x.1.pos) = false := by
            simpa using hxpos
          have hstep := p1_scan_step_cross_skip statuses cf now starter sst
            (some b0, r0, some t0) x hxpos' rfl
          rw [hstep]
          obtain ⟨b', r', t', heq, hps, hle, hbound, hch⟩ := ih b0 r0 t0 hp
          refine ⟨b', r', t', heq, hps, hle, ?_, ?_⟩
          · intro c hc hel hcp u hu
            rcases List.mem_cons.mp hc with rfl | hc
            · exact absurd (beq_iff_eq.mpr hcp.symm) (by rw [hxpos']; simp)
            · exact hbound c hc hel hcp u hu
          · rcases hch with h | ⟨c, hc, rest⟩
            · exact Or.inl h
            · exact Or.inr ⟨c, List.mem_cons_of_mem x hc, rest⟩
      · have hstep := p1_scan_step_guard_skip statuses cf now starter sst
          (some b0, r0, some t0) x bst bgt hb2 hgt (by simp [hlt])
        rw [hstep]
        obtain ⟨b', r', t', heq, hps, hle, hbound, hch⟩ := ih b0 r0 t0 hp
        refine ⟨b', r', t', heq, hps, hle, ?_, ?_⟩
        · intro c hc hel hcp u hu
          rcases List.mem_cons.mp hc with rfl | hc
          · rw [hgtx] at hu
            have hub : u = bgt := (Option.some.inj hu).symm
            have hbt : bgt ≤ t0 := le_of_not_lt hlt
            exact hub ▸ le_trans hbt hle
          · exact hbound c hc hel hcp u hu
        · rcases hch with h | ⟨c, hc, rest⟩
          · exact Or.inl h
          · exact Or.inr ⟨c, List.mem_cons_of_mem x hc, rest⟩
    · have hstep := p1_scan_step_skip statuses cf now starter sst
        (some b0, r0, some t0) x (by simpa using helig)
      rw [hstep]
      obtain ⟨b', r', t', heq, hps, hle, hbound, hch⟩ := ih b0 r0 t0 hp
      refine ⟨b', r', t', heq, hps, hle, ?_, ?_⟩
      · intro c hc hel hcp u hu
        rcases List.mem_cons.mp hc with rfl | hc
        · exact absurd hel helig
        · exact hbound c hc hel hcp u hu
      · rcases hch with h | ⟨c, hc, rest⟩
        · exact Or.inl h
        · exact Or.inr ⟨c, List.mem_cons_of_mem x hc, rest⟩

/-- C3 amended: in pass 1, for an eligible starter, IF the first swap-legal
candidate (status present, known not-soon game time, can-swap passes) in
bench order is at the starter's position, THEN the chosen proposal is a
same-position candidate whose game time is the latest among same-position
swap-legal candidates.  (Without that proviso the claim fails: an earlier
cross-position candidate with a game time at least as late blocks every
same-position candidate at the latest-game-time guard, see the
counterexample.) -/
theorem c3_amended (statuses : StatusMap) (cf : Formation) (now : Int)
    (starter : RosterRow) (sst : PlayerStatus)
    (pre post : List BenchEntry) (b : BenchEntry)
    (hpre : ∀ x ∈ pre, p1_eligible statuses cf now starter x = false)
    (hb : p1_eligible statuses cf now starter b = true)
    (hpos : b.1.pos = starter.pos) :
    ∃ b' r t,
      (pre ++ b :: post).foldl (p1_scan_step statuses cf now starter sst)
        (none, none, none) = (some b', r, some t) ∧
      b'.pos = starter.pos ∧
      (∃ c ∈ pre ++ b :: post, c.1 = b' ∧ bench_game_time c = some t ∧
        p1_eligible statuses cf now starter c = true ∧ c.1.pos = starter.pos) ∧
      (∀ c ∈ pre ++ b :: post, p1_eligible statuses cf now starter c = true →
        c.1.pos = starter.pos → ∀ u, bench_game_time c = some u → u ≤ t) ∧
      (∀ swaps : List Swap, sst.is_game_soon now = true →
        sst.is_confirmed_not_starting = true →
        (pass1_step statuses cf now (swaps, pre ++ b :: post) (starter, some sst)).1 =
          swaps ++ [(starter, b', r.getD "")]) := by
  obtain ⟨bst, bgt, hb2, hgt, hsoon, hcan⟩ :=
    p1_eligible_elim statuses cf now starter b hb
  have hxpos : (starter.pos == b.1.pos) = true := beq_iff_eq.mpr hpos.symm
  have hstep := p1_scan_step_eligible_same statuses cf now starter sst
    (none, none, none) b bst bgt hb2 hgt hsoon hcan hxpos (by simp)
  have hgtb : bench_game_time b = some bgt := by
    simp [bench_game_time, hb2, hgt]
  obtain ⟨b', r', t', heq, hps, hle, hbound, hch⟩ :=
    p1_scan_same_pos_mono statuses cf now starter sst post b.1
      (some ("Direct position match - replacing confirmed non-starter (" ++
        optStr sst.opponent ++ ") with player from later game (" ++
        optStr bst.opponent ++ ")"))
      bgt hpos
  have hfold : (pre ++ b :: post).foldl (p1_scan_step statuses cf now starter sst)
      (none, none, none) = (some b', r', some t') := by
    rw [List.foldl_append, p1_scan_prefix_skip statuses cf now starter sst pre _ hpre,
      List.foldl_cons, hstep, heq]
  refine ⟨b', r', t', hfold, hps, ?_, ?_, ?_⟩
  · rcases hch with ⟨hb', ht'⟩ | ⟨c, hc, hc1, hc2, hc3, hc4⟩
    · refine ⟨b, List.mem_append.mpr (Or.inr (List.mem_cons_self b post)),
        hb'.symm ▸ rfl, ?_, hb, hpos⟩
      rw [hgtb, ht']
    · exact ⟨c, List.mem_append.mpr (Or.inr (List.mem_cons_of_mem b hc)),
        hc1, hc2, hc3, hc4⟩
  · intro c hc hel hcp u hu
    rcases List.mem_append.mp hc with hc | hc
    · exact absurd hel (by rw [hpre c hc]; simp)
    · rcases List.mem_cons.mp hc with rfl | hc
      · rw [hgtb] at hu
        exact (Option.some.inj hu) ▸ hle
      · exact hbound c hc hel hcp u hu
  · intro swaps hgs hcns
    simp only [pass1_step, hgs, hcns, hfold, if_true]

/-- Witness for C3 amended: on `ex1_roster`'s bench the first swap-legal
candidate "b1" is at the starter's position. -/
theorem c3_amended_witness :
    (∀ x ∈ ([] : List BenchEntry),
      p1_eligible ex1_statuses (get_current_formation ex1_roster) 0 (mkRow "A" "D") x
        = false) ∧
    (p1_eligible ex1_statuses (get_current_formation ex1_roster) 0 (mkRow "A" "D")
      (mkRow "b1" "D", get_player_status ex1_statuses "b1") = true) ∧
    ((mkRow "b1" "D", get_player_status ex1_statuses "b1").1.pos = (mkRow "A" "D").pos) ∧
    (∃ b' r t,
      (([] : List BenchEntry) ++
          (mkRow "b1" "D", get_player_status ex1_statuses "b1") ::
          [(mkRow "b2" "D", get_player_status ex1_statuses "b2")]).foldl
        (p1_scan_step ex1_statuses (get_current_formation ex1_roster) 0
          (mkRow "A" "D") exA_status)
        (none, none, none) = (some b', r, some t) ∧
      b'.pos = (mkRow "A" "D").pos ∧
      (∃ c ∈ ([] : List BenchEntry) ++
          (mkRow "b1" "D", get_player_status ex1_statuses "b1") ::
          [(mkRow "b2" "D", get_player_status ex1_statuses "b2")],
        c.1 = b' ∧ bench_game_time c = some t ∧
        p1_eligible ex1_statuses (get_current_formation ex1_roster) 0
          (mkRow "A" "D") c = true ∧
        c.1.pos = (mkRow "A" "D").pos) ∧
      (∀ c ∈ ([] : List BenchEntry) ++
          (mkRow "b1" "D", get_player_status ex1_statuses "b1") ::
          [(mkRow "b2" "D", get_player_status ex1_statuses "b2")],
        p1_eligible ex1_statuses (get_current_formation ex1_roster) 0
          (mkRow "A" "D") c = true →
        c.1.pos = (mkRow "A" "D").pos →
        ∀ u, bench_game_time c = some u → u ≤ t) ∧
      (∀ swaps : List Swap, exA_status.is_game_soon 0 = true →
        exA_status.is_confirmed_not_starting = true →
        (pass1_step ex1_statuses (get_current_formation ex1_roster) 0
          (swaps, ([] : List BenchEntry) ++
            (mkRow "b1" "D", get_player_status ex1_statuses "b1") ::
            [(mkRow "b2" "D", get_player_status ex1_statuses "b2")])
          (mkRow "A" "D", some exA_status)).1 =
          swaps ++ [(mkRow "A" "D", b', r.getD "")])) :=
  ⟨fun x hx => absurd hx (List.not_mem_nil x), by decide, by decide,
   c3_amended ex1_statuses (get_current_formation ex1_roster) 0 (mkRow "A" "D")
     exA_status [] [(mkRow "b2" "D", get_player_status ex1_statuses "b2")]
     (mkRow "b1" "D", get_player_status ex1_statuses "b1")
     (fun x hx => absurd hx (List.not_mem_nil x)) (by decide) (by decide)⟩

/-! ## Status refresh analysis (for C8) -/

theorem lookup_foldl_insert_of_absent (pt : String → Option Int) (now : Int) :
    ∀ (records : List Record) (m0 : StatusMap) (k : String),
      (∀ x ∈ records, x.scorerId ≠ k) →
      (records.foldl
        (fun m r => insert_status m r.scorerId (processRecord pt now r)) m0).lookup k
        = m0.lookup k := by
  intro records
  induction records with
  | nil => intro m0 k _; rfl
  | cons a rest ih =>
    intro m0 k h
    rw [List.foldl_cons, ih _ k (fun x hx => h x (List.mem_cons_of_mem a hx))]
    have hne : (k == a.scorerId) = false :=
      beq_eq_false_iff_ne.mpr (fun e => h a (List.mem_cons_self a rest) e.symm)
    simp [insert_status, List.lookup, hne]

theorem lookup_foldl_insert (pt : String → Option Int) (now : Int) :
    ∀ (records : List Record) (m0 : StatusMap) (r : Record),
      (records.map Record.scorerId).Nodup →
      r ∈ records →
      (records.foldl
        (fun m x => insert_status m x.scorerId (processRecord pt now x)) m0).lookup
          r.scorerId
        = some (processRecord pt now r) := by
  intro records
  induction records with
  | nil => intro m0 r _ hr; exact absurd hr (List.not_mem_nil r)
  | cons a rest ih =>
    intro m0 r hnd hr
    rw [List.map_cons, List.nodup_cons] at hnd
    obtain ⟨ha, hnd'⟩ := hnd
    rcases List.mem_cons.mp hr with rfl | hr
    · rw [List.foldl_cons,
        lookup_foldl_insert_of_absent pt now rest _ r.scorerId
          (fun x hx e => ha (List.mem_map.mpr ⟨x, hx, e⟩))]
      simp [insert_status, List.lookup]
    · rw [List.foldl_cons]
      exact ih _ r hnd' hr

theorem processRecord_malformed (pt : String → Option Int) (now : Int) (r : Record)
    (comp : String) (hc : r.opponent = some comp)
    (hl : (splitOnBr comp).length ≠ 2) :
    (processRecord pt now r).opponent = none ∧
    (processRecord pt now r).game_time = none := by
  rcases hsp : splitOnBr comp with _ | ⟨o, tail⟩
  · constructor <;> simp [processRecord, hc, hsp]
  · rcases tail with _ | ⟨t, tail2⟩
    · constructor <;> simp [processRecord, hc, hsp]
    · rcases tail2 with _ | ⟨u, rest⟩
      · exact absurd (by rw [hsp]; rfl) hl
      · constructor <;> simp [processRecord, hc, hsp]

/-- C8: a record whose opponent composite does not split into exactly two
parts yields a status entry with `opponent` and `game_time` unset, every
other record of the batch is processed normally (its entry is exactly
`processRecord` of the record), and the refresh is a total function — it
completes without raising. -/
theorem c8_malformed_record_isolated :
    ∀ (pt : String → Option Int) (now : Int) (prior : StatusMap)
      (records : List Record) (rec : Record) (comp : String),
      (records.map Record.scorerId).Nodup →
      rec ∈ records →
      rec.opponent = some comp →
      (splitOnBr comp).length ≠ 2 →
      ((update_player_statuses (Except.ok records) pt now prior).lookup rec.scorerId
        = some (processRecord pt now rec)) ∧
      (processRecord pt now rec).opponent = none ∧
      (processRecord pt now rec).game_time = none ∧
      (∀ r ∈ records,
        (update_player_statuses (Except.ok records) pt now prior).lookup r.scorerId
          = some (processRecord pt now r)) := by
  intro pt now prior records rec comp hnd hmem hopp hlen
  obtain ⟨h1, h2⟩ := processRecord_malformed pt now rec comp hopp hlen
  exact ⟨lookup_foldl_insert pt now records [] rec hnd hmem, h1, h2,
    fun r hr => lookup_foldl_insert pt now records [] r hnd hr⟩

/-- Witness for C8 at a concrete two-record batch. -/
theorem c8_malformed_record_isolated_witness :
    ((ex8_records.map Record.scorerId).Nodup ∧ rec8 ∈ ex8_records ∧
     rec8.opponent = some "nosplit" ∧ (splitOnBr "nosplit").length ≠ 2) ∧
    (((update_player_statuses (Except.ok ex8_records) (fun _ => some 5) 0 []).lookup
        rec8.scorerId = some (processRecord (fun _ => some 5) 0 rec8)) ∧
     (processRecord (fun _ => some 5) 0 rec8).opponent = none ∧
     (processRecord (fun _ => some 5) 0 rec8).game_time = none ∧
     (∀ r ∈ ex8_records,
       (update_player_statuses (Except.ok ex8_records) (fun _ => some 5) 0 []).lookup
         r.scorerId = some (processRecord (fun _ => some 5) 0 r))) :=
  ⟨⟨by decide, by decide, by decide, by decide⟩,
   c8_malformed_record_isolated (fun _ => some 5) 0 [] ex8_records rec8 "nosplit"
     (by decide) (by decide) (by decide) (by decide)⟩

end Fantrax
